import Mathlib

/-!
# pdfGenerator.js: layout engine of the measurement sheet

Shallow embedding of `generatePDF` (client/src/utils/pdfGenerator.js).

* Lengths (millimetres) are exact rationals.
* The closure variables `y`, `pageCount` and the jsPDF document are an explicit
  state `St`, threaded through every helper.
* Calls that only change the drawing style (`setFont`, `setFontSize`,
  `setFillColor`, `setDrawColor`, `setTextColor`, `setLineWidth`) have no effect
  on the cursor, the page counter or the geometry and are left out.
* What the JavaScript runtime and the libraries compute (page size, number
  formatting, dates, text wrapping, table layout) is collected in `Env` and
  taken as a parameter.
-/

namespace PdfGenerator

/-! ## JavaScript values -/

/-- Value found under a measurement field name, as JavaScript sees it:
absent (`undefined`), `null`, a finite number, `NaN` or a string. -/
inductive JsValue where
  | undefined
  | null
  | number (q : ℚ)
  | nan
  | string (s : String)
  deriving DecidableEq

/-- JavaScript truthiness, the test made by `v ? a : b`. -/
def JsValue.truthy : JsValue → Bool
  | .number q => decide (q ≠ 0)
  | .string s => decide (s ≠ "")
  | _ => false

/-- Truthiness of an optional string, the test made by `s || d` and `s ? a : b`. -/
def strTruthy : Option String → Bool
  | some s => decide (s ≠ "")
  | none => false

/-- The expression `s || d` on an optional string. -/
def strOr (s : Option String) (d : String) : String :=
  match s with
  | some v => if v ≠ "" then v else d
  | none => d

/-! ## Environment: what the runtime and the libraries supply -/

/-- Result of one `autoTable` call, read back by the caller. -/
structure TableResult where
  /-- Value of `doc.lastAutoTable.finalY`. -/
  finalY : ℚ
  /-- Pages the table layout appended to the document on its own. -/
  pagesAdded : Nat

/-- Values computed outside `generatePDF`. -/
structure Env where
  /-- Value of `doc.internal.pageSize.getWidth()`. -/
  PAGE_W : ℚ
  /-- Value of `doc.internal.pageSize.getHeight()`. -/
  PAGE_H : ℚ
  /-- Conversion of a finite number to text inside a template literal. -/
  numToString : ℚ → String
  /-- Value of `new Date().getFullYear()`. -/
  year : Nat
  /-- Value of `format(new Date(), "d 'de' MMMM 'de' yyyy", ...)`. -/
  dateLong : String
  /-- Value of `format(new Date(), 'ddMMyyyy')`. -/
  dateFile : String
  /-- Wrapping of a text to a width, `doc.splitTextToSize`. -/
  splitTextToSize : String → ℚ → List String
  /-- Layout of a table body started at a cursor position, `autoTable`. -/
  autoTable : ℚ → List (List String) → TableResult

/-- Text of a value inside a template literal. -/
def JsValue.toStr (env : Env) : JsValue → String
  | .undefined => "undefined"
  | .null => "null"
  | .number q => env.numToString q
  | .nan => "NaN"
  | .string s => s

/-! ## Input records -/

/-- The `studio` argument. -/
structure Studio where
  name : Option String
  phone : Option String
  website : Option String

/-- The `client` argument. -/
structure Client where
  name : Option String
  gender : Option String
  phone : Option String
  email : Option String

/-- A measurement group: a JavaScript object read by field name. -/
abbrev Group := String → JsValue

/-- The object `{}`. -/
def emptyGroup : Group := fun _ => JsValue.undefined

/-- The `measure` argument. -/
structure Measure where
  label : Option String
  fitType : Option String
  fabricType : Option String
  suggestedSize : Option String
  technicalNotes : Option String
  upper : Option Group
  arms : Option Group
  pants : Option Group
  lower : Option Group

/-! ## Document and renderer state -/

/-- Drawing calls that put something on a page. -/
inductive Op where
  | rect (x y w h : ℚ)
  | roundedRect (x y w h : ℚ)
  | line (x1 y1 x2 y2 : ℚ)
  | text (s : String) (x y : ℚ)
  | textLines (ls : List String) (x y : ℚ)
  | table (startY : ℚ) (body : List (List String))
  deriving DecidableEq

/-- The jsPDF document: current (last) page and the drawing calls made so far,
each with the page it was made on. -/
structure Doc where
  page : Nat
  ops : List (Nat × Op)
  deriving DecidableEq

/-- Record of one `drawFooter` call. -/
structure FooterCall where
  /-- Page of the document the footer was drawn on. -/
  docPage : Nat
  /-- Argument `pageNum`. -/
  pageNum : Nat
  /-- Text printed right-aligned by the call. -/
  label : String
  deriving DecidableEq

/-- State shared by the stages of `generatePDF`. -/
structure St where
  doc : Doc
  y : ℚ
  pageCount : Nat
  /-- Calls of `drawFooter` so far, oldest first. -/
  footers : List FooterCall
  deriving DecidableEq

/-- A drawing call on the current page. -/
def draw (op : Op) (s : St) : St :=
  { s with doc := { s.doc with ops := s.doc.ops ++ [(s.doc.page, op)] } }

/-- The call `doc.addPage()`. -/
def addPage (s : St) : St :=
  { s with doc := { s.doc with page := s.doc.page + 1 } }

/-- The constant `MARGIN`. -/
def MARGIN : ℚ := 18

/-! ## Helpers of `generatePDF` -/

/-- The call `website.replace(/^https?:\/\//, '')`. -/
def stripProtocol (w : String) : String :=
  if "https://".isPrefixOf w then w.drop 8
  else if "http://".isPrefixOf w then w.drop 7
  else w

/-- The expression `[studio.phone, studio.website?.replace(...)].filter(Boolean).join(' · ')`. -/
def contactParts (studio : Studio) : String :=
  " · ".intercalate
    (([studio.phone, studio.website.map stripProtocol].filter strTruthy).map (fun o => o.getD ""))

/-- Text printed at the right of the footer. -/
def pageLabel (pageNum : Nat) : String := "Página " ++ toString pageNum

/-- The helper `drawFooter(pageNum)`. -/
def drawFooter (env : Env) (studio : Studio) (pageNum : Nat) (s : St) : St :=
  let footerY := env.PAGE_H - 12
  let s1 := draw (Op.line MARGIN (footerY - 4) (env.PAGE_W - MARGIN) (footerY - 4)) s
  let studioName := strOr studio.name "Atelier Elizabeth"
  let parts := contactParts studio
  let s2 := draw (Op.text (studioName ++ " © " ++ toString env.year ++ " — Ficha técnica confidencial")
    MARGIN footerY) s1
  let s3 := if parts ≠ "" then draw (Op.text parts (env.PAGE_W / 2) footerY) s2 else s2
  let s4 := draw (Op.text (pageLabel pageNum) (env.PAGE_W - MARGIN) footerY) s3
  { s4 with footers := s4.footers ++ [⟨s.doc.page, pageNum, pageLabel pageNum⟩] }

/-- The helper `ensureSpace(needed)`. -/
def ensureSpace (env : Env) (studio : Studio) (needed : ℚ) (s : St) : St :=
  if s.y > env.PAGE_H - needed - 20 then
    let s1 := drawFooter env studio s.pageCount s
    let s2 := addPage s1
    { s2 with pageCount := s2.pageCount + 1, y := 20 }
  else s

/-- The helper `drawSectionHeader(number, title, color)`. -/
def drawSectionHeader (env : Env) (studio : Studio) (number title : String) (s : St) : St :=
  let s1 := ensureSpace env studio 30 s
  let barH : ℚ := 8
  let s2 := draw (Op.roundedRect MARGIN s1.y (env.PAGE_W - MARGIN * 2) barH) s1
  let s3 := draw (Op.text (number ++ ". " ++ title) (MARGIN + 4) (s2.y + 5.8)) s2
  { s3 with y := s3.y + (barH + 4) }

/-! ## Measurement rows -/

/-- A `[label, value]` entry of a row list. -/
abbrev Row := String × String

/-- The value cell `v ? (v + " cm") : '—'` written out for every field. -/
def cell (env : Env) (v : JsValue) : String :=
  if v.truthy then v.toStr env ++ " cm" else "—"

/-- Loop of `toDoubleRows`: `for (let i = ...; i < rows.length; i += 2)`. -/
def toDoubleRowsLoop (rows : List Row) (i : Nat) (result : List (List String)) :
    List (List String) :=
  if i < rows.length then
    let left := (rows[i]?).getD ("", "")
    let right := (rows[i + 1]?).getD ("", "")
    toDoubleRowsLoop rows (i + 2) (result ++ [[left.1, left.2, right.1, right.2]])
  else result
termination_by rows.length - i

/-- The helper `toDoubleRows(rows)`. -/
def toDoubleRows (rows : List Row) : List (List String) :=
  toDoubleRowsLoop rows 0 []

/-- Labels and field names read for `upperRows`, in source order. -/
def upperFields : List (String × String) :=
  [("Contorno de cuello", "contornoCuello"),
   ("Contorno sobre busto", "contornoSobreBusto"),
   ("Contorno de busto", "contornoBusto"),
   ("Contorno bajo busto", "contornoBajoBusto"),
   ("Contorno de cintura", "contornoCintura"),
   ("Contorno de cadera", "contornoCadera"),
   ("Hombros", "hombros"),
   ("Ancho de hombro", "anchoHombro"),
   ("Caída de hombro", "caidaHombro"),
   ("Ancho de busto", "anchoBusto"),
   ("Altura de busto", "alturaBusto"),
   ("Altura de cadera", "alturaCapdera"),
   ("Largo de talle", "largoTalle"),
   ("Largo de talle centro", "largoTalleCentro")]

/-- Labels and field names read for `armRows`, in source order. -/
def armFields : List (String × String) :=
  [("Largo de brazo", "largoBrazo"),
   ("Contorno de bíceps", "contornoBiceps"),
   ("Bajo el brazo", "bajoElBrazo"),
   ("Contorno de codo", "contornoCodo"),
   ("Contorno de muñeca", "contornoMuneca"),
   ("Contorno de puño", "contornoPuno")]

/-- Labels and field names read for `pantsRows`, in source order. -/
def pantsFields : List (String × String) :=
  [("Contorno de cintura", "contornoCintura"),
   ("Altura de cadera", "alturaCadera"),
   ("Contorno de cadera", "contornoCadera"),
   ("Altura de asiento", "alturaAsiento"),
   ("Largo de pantalón", "largoPantalon"),
   ("Largo de falda", "largoFalda")]

/-- Labels and field names read for `lowerRows`, in source order. -/
def lowerFields : List (String × String) :=
  [("Largo talle trasero", "largoTalleTrasero"),
   ("Ancho hombros trasero", "anchoHombrosTrasero"),
   ("Largo centro trasero", "largoCentroTrasero"),
   ("Reboque de cuello", "reboqueCuelloTrasero"),
   ("Largo caída trasero", "largoCaidaTrasero"),
   ("Ancho tórax trasero", "anchoToraxTrasero"),
   ("Ancho omóplatos trasero", "anchoOmoplatosTrasero"),
   ("Ancho cintura trasero", "anchoCinturaTrasero")]

/-- Row list of one group: every entry is `[label, g.field ? (g.field + " cm") : '—']`. -/
def groupRows (env : Env) (fields : List (String × String)) (g : Group) : List Row :=
  fields.map (fun f => (f.1, cell env (g f.2)))

/-- The expression `measure?.upper || {}` and its three siblings. -/
def groupOf (measure : Option Measure) (sel : Measure → Option Group) : Group :=
  ((measure.bind sel).getD emptyGroup)

/-- The constant `upperRows`. -/
def upperRows (env : Env) (measure : Option Measure) : List Row :=
  groupRows env upperFields (groupOf measure Measure.upper)

/-- The constant `armRows`. -/
def armRows (env : Env) (measure : Option Measure) : List Row :=
  groupRows env armFields (groupOf measure Measure.arms)

/-- The constant `pantsRows`. -/
def pantsRows (env : Env) (measure : Option Measure) : List Row :=
  groupRows env pantsFields (groupOf measure Measure.pants)

/-- The constant `lowerRows`. -/
def lowerRows (env : Env) (measure : Option Measure) : List Row :=
  groupRows env lowerFields (groupOf measure Measure.lower)

/-- The filter `rows.filter(([, v]) => v !== '—').length`. -/
def presentCount (rows : List Row) : Nat :=
  (rows.filter (fun r => decide (r.2 ≠ "—"))).length

/-- The constant `totalMeasures`. -/
def totalMeasures (env : Env) (measure : Option Measure) : Nat :=
  presentCount (upperRows env measure) + presentCount (armRows env measure) +
    presentCount (pantsRows env measure) + presentCount (lowerRows env measure)

/-- The constant `summaryItems`: the entries that survive `.filter(Boolean)`. -/
def summaryItems (env : Env) (measure : Option Measure) : List String :=
  let fitType := measure.bind Measure.fitType
  let suggestedSize := measure.bind Measure.suggestedSize
  let fabricType := measure.bind Measure.fabricType
  ([ some ("Total medidas: " ++ toString (totalMeasures env measure) ++ " / 34"),
     if strTruthy fitType then some ("Ajuste: " ++ fitType.getD "") else none,
     if strTruthy suggestedSize then some ("Talla: " ++ suggestedSize.getD "") else none,
     if strTruthy fabricType then some ("Tela: " ++ fabricType.getD "") else none ]
    ).filterMap (fun o => if strTruthy o then o else none)

/-! ## Stages of `generatePDF` -/

/-- State at the start of the render: one page, nothing drawn, `pageCount = 1`.
The cursor `y` is declared with the value 50 after the header band is drawn;
nothing reads it before. -/
def initSt : St :=
  { doc := { page := 1, ops := [] }, y := 50, pageCount := 1, footers := [] }

/-- The block `CABECERA`. -/
def headerStage (env : Env) (studio : Studio) (s : St) : St :=
  let s1 := draw (Op.rect 0 0 env.PAGE_W 36) s
  let s2 := draw (Op.text (strOr studio.name "Atelier Elizabeth") MARGIN 14) s1
  let s3 := draw (Op.text "Ficha Técnica de Medidas" MARGIN 21) s2
  let s4 := draw (Op.text ("Emitida el " ++ env.dateLong) (env.PAGE_W - MARGIN) 21) s3
  draw (Op.rect 0 36 env.PAGE_W 2.5) s4

/-- The lookup `genderLabel[client.gender] || client.gender` on the three own keys. -/
def genderText (g : String) : String :=
  if g = "femenino" then "Femenino"
  else if g = "masculino" then "Masculino"
  else if g = "otro" then "Otro"
  else g

/-- An entry `...(v ? [[label, v]] : [])` of a field list. -/
def optField (label : String) (v : Option String) : List Row :=
  if strTruthy v then [(label, v.getD "")] else []

/-- The constant `leftFields`. -/
def leftFields (client : Client) : List Row :=
  [("Nombre:", strOr client.name "—")] ++
    (if strTruthy client.gender then [("Género:", genderText (client.gender.getD ""))] else []) ++
    [("Teléfono:", strOr client.phone "—"), ("Email:", strOr client.email "—")]

/-- The constant `rightFields`. -/
def rightFields (measure : Option Measure) : List Row :=
  optField "Sesión:" (measure.bind Measure.label) ++
    optField "Ajuste:" (measure.bind Measure.fitType) ++
    optField "Tela:" (measure.bind Measure.fabricType) ++
    optField "Talla sugerida:" (measure.bind Measure.suggestedSize)

/-- Body of the loop over the client rows, for index `i`. -/
def clientRow (env : Env) (left right : List Row) (s : St) (i : Nat) : St :=
  let COL_L := MARGIN
  let COL_LV := MARGIN + 28
  let COL_R := env.PAGE_W / 2 + 5
  let COL_RV := COL_R + 32
  let s1 := match left[i]? with
    | some f => draw (Op.text f.2 COL_LV s.y) (draw (Op.text f.1 COL_L s.y) s)
    | none => s
  let s2 := match right[i]? with
    | some f => draw (Op.text f.2 COL_RV s1.y) (draw (Op.text f.1 COL_R s1.y) s1)
    | none => s1
  { s2 with y := s2.y + 6 }

/-- The block `DATOS DEL CLIENTE`. -/
def clientStage (env : Env) (client : Client) (measure : Option Measure) (s : St) : St :=
  let s0 := { s with y := 50 }
  let s1 := draw (Op.text "Datos del Cliente" MARGIN s0.y) s0
  let s2 := { s1 with y := s1.y + 2 }
  let s3 := draw (Op.line MARGIN s2.y (MARGIN + 40) s2.y) s2
  let s4 := { s3 with y := s3.y + 6 }
  let left := leftFields client
  let right := rightFields measure
  let maxRows := max left.length right.length
  let s5 := (List.range maxRows).foldl (clientRow env left right) s4
  { s5 with y := s5.y + 6 }

/-- One measurement section: the section bar, the table and the cursor read
back from the table (`y = doc.lastAutoTable.finalY + gap`). The head row of the
table is the constant `['Medida', 'Valor', 'Medida', 'Valor']`. -/
def measureSection (env : Env) (studio : Studio) (number title : String) (rows : List Row)
    (gap : ℚ) (s : St) : St :=
  let s1 := drawSectionHeader env studio number title s
  let body := toDoubleRows rows
  let r := env.autoTable s1.y body
  let s2 := draw (Op.table s1.y body) s1
  { s2 with doc := { s2.doc with page := s2.doc.page + r.pagesAdded }, y := r.finalY + gap }

/-- Body of `summaryItems.forEach((txt, i) => ...)`. -/
def summaryText (gap y : ℚ) (s : St) (it : Nat × String) : St :=
  draw (Op.text it.2 (MARGIN + gap * ((it.1 : ℚ) + 1)) (y + 10)) s

/-- The block `RESUMEN RÁPIDO`. -/
def summaryStage (env : Env) (studio : Studio) (measure : Option Measure) (s : St) : St :=
  let s1 := ensureSpace env studio 25 s
  let summaryW := env.PAGE_W - MARGIN * 2
  let s2 := draw (Op.roundedRect MARGIN s1.y summaryW 16) s1
  let items := summaryItems env measure
  let gap := summaryW / ((items.length : ℚ) + 1)
  let s3 := items.enum.foldl (summaryText gap s2.y) s2
  { s3 with y := s3.y + 24 }

/-- The constant `boxH`, for `n = noteLines.length`. -/
def boxH (n : Nat) : ℚ := max 20 (min ((n : ℚ) * 4.5 + 10) 50)

/-- The expression `noteLines.slice(0, 8)`. -/
def shownLines (noteLines : List String) : List String := noteLines.take 8

/-- The constant `noteLines`, for the note text `t`. -/
def noteLinesOf (env : Env) (t : String) : List String :=
  env.splitTextToSize t (env.PAGE_W - MARGIN * 2 - 10)

/-- The block `NOTAS TÉCNICAS`. -/
def notesStage (env : Env) (studio : Studio) (measure : Option Measure) (s : St) : St :=
  let notes := measure.bind Measure.technicalNotes
  if strTruthy notes then
    let s1 := ensureSpace env studio 45 s
    let s2 := draw (Op.text "Notas Técnicas" MARGIN s1.y) s1
    let s3 := { s2 with y := s2.y + 5 }
    let noteLines := noteLinesOf env (notes.getD "")
    let h := boxH noteLines.length
    let s4 := draw (Op.roundedRect MARGIN s3.y (env.PAGE_W - MARGIN * 2) h) s3
    let s5 := draw (Op.textLines (shownLines noteLines) (MARGIN + 5) (s4.y + 7)) s4
    { s5 with y := s5.y + (h + 8) }
  else s

/-! ## File name -/

/-- Characters matched by `\s` in a JavaScript regular expression. -/
def isSpace (c : Char) : Bool :=
  let n := c.toNat
  (9 ≤ n && n ≤ 13) || n == 32 || n == 160 || n == 5760 || (8192 ≤ n && n ≤ 8202) ||
    n == 8232 || n == 8233 || n == 8239 || n == 8287 || n == 12288 || n == 65279

/-- The call `.replace(/\s+/g, '-')` on the characters of a string; `inRun` tells
that the previous character belongs to the whitespace run being replaced. -/
def replaceSpacesAux (inRun : Bool) : List Char → List Char
  | [] => []
  | c :: cs =>
    if isSpace c then
      if inRun then replaceSpacesAux true cs else '-' :: replaceSpacesAux true cs
    else c :: replaceSpacesAux false cs

/-- The call `.replace(/\s+/g, '-')`. -/
def replaceSpaces (cs : List Char) : List Char := replaceSpacesAux false cs

/-- Lower-case mapping of one character: the letters of Basic Latin (`A`-`Z`) and of
Latin-1 Supplement (`À`-`Þ` without `×`) move 32 code points up, every other
character is returned as it is. -/
def lowerChar (c : Char) : Char :=
  let n := c.toNat
  if (65 ≤ n && n ≤ 90) || (192 ≤ n && n ≤ 222 && n != 215) then Char.ofNat (n + 32) else c

/-- The call `.toLowerCase()`, character by character. -/
def toLowerCase (cs : List Char) : List Char := cs.map lowerChar

/-- The constant `safeName`. -/
def safeName (client : Client) : String :=
  String.mk (toLowerCase (replaceSpaces (strOr client.name "cliente").data))

/-- The constant `filename`. -/
def filename (env : Env) (client : Client) : String :=
  "ficha-" ++ safeName client ++ "-" ++ env.dateFile ++ ".pdf"

/-! ## The whole render -/

/-- State just before the notes block. -/
def beforeNotes (env : Env) (client : Client) (measure : Option Measure) (studio : Studio) : St :=
  let s1 := headerStage env studio initSt
  let s2 := clientStage env client measure s1
  let s3 := measureSection env studio "1" "Medidas Delanteras (14)" (upperRows env measure) 8 s2
  let s4 := measureSection env studio "2" "Medidas de Brazo (6)" (armRows env measure) 8 s3
  let s5 := measureSection env studio "3" "Medidas de Pantalón / Falda (6)"
    (pantsRows env measure) 8 s4
  let s6 := measureSection env studio "4" "Medidas Traseras (8)" (lowerRows env measure) 10 s5
  summaryStage env studio measure s6

/-- The function `generatePDF(client, measure, studio)`: the final state and the
name passed to `doc.save`. -/
def generatePDF (env : Env) (client : Client) (measure : Option Measure) (studio : Studio) :
    St × String :=
  let s1 := beforeNotes env client measure studio
  let s2 := notesStage env studio measure s1
  let s3 := drawFooter env studio s2.pageCount s2
  (s3, filename env client)

/-- The section header as the specification words it: `ensureSpace` is called
with the band height plus the gap, then the bar is drawn and the cursor
advances by that same amount. -/
def specSectionHeader (env : Env) (studio : Studio) (number title : String) (s : St) : St :=
  let barH : ℚ := 8
  let s1 := ensureSpace env studio (barH + 4) s
  let s2 := draw (Op.roundedRect MARGIN s1.y (env.PAGE_W - MARGIN * 2) barH) s1
  let s3 := draw (Op.text (number ++ ". " ++ title) (MARGIN + 4) (s2.y + 5.8)) s2
  { s3 with y := s3.y + (barH + 4) }

/-- Packing two entries per row, by recursion on the list. Used to describe the
result of the loop of `toDoubleRows`. -/
def pairUp : List Row → List (List String)
  | [] => []
  | [a] => [[a.1, a.2, "", ""]]
  | a :: b :: t => [a.1, a.2, b.1, b.2] :: pairUp t

/-- Tells that a field holds a numeric value. -/
def JsValue.isNumber : JsValue → Bool
  | .number _ => true
  | _ => false

/-- Number of the 34 fields of a record that satisfy `p`, group by group. -/
def fieldCount (p : JsValue → Bool) (measure : Option Measure) : Nat :=
  upperFields.countP (fun f => p (groupOf measure Measure.upper f.2)) +
    armFields.countP (fun f => p (groupOf measure Measure.arms f.2)) +
    pantsFields.countP (fun f => p (groupOf measure Measure.pants f.2)) +
    lowerFields.countP (fun f => p (groupOf measure Measure.lower f.2))

/-- Number of the 34 fields that hold a numeric value, the count the
specification asks the summary to report. -/
def numericFieldCount (measure : Option Measure) : Nat :=
  fieldCount JsValue.isNumber measure

/-- Number of the 34 fields whose value is truthy. -/
def truthyFieldCount (measure : Option Measure) : Nat :=
  fieldCount JsValue.truthy measure

/-- Footer record expected for page `n`: drawn on page `n`, numbered `n`. -/
def footerOf (n : Nat) : FooterCall := ⟨n, n, "Página " ++ toString n⟩

/-- Bookkeeping invariant of the render while pages are added by `ensureSpace`
only: the document is on page `pageCount`, and the footers drawn so far are
those of the pages 1 to `pageCount - 1`, in order. -/
def PagesClosed (s : St) : Prop :=
  1 ≤ s.pageCount ∧ s.doc.page = s.pageCount ∧
    s.footers = (List.range' 1 (s.pageCount - 1)).map footerOf

/-! ## Sample inputs -/

/-- A4 page, tables of ten millimetres per row that never add a page, one
wrapped line per character of the note. -/
def sampleEnv : Env :=
  { PAGE_W := 210
    PAGE_H := 297
    numToString := fun q => toString q.num
    year := 2024
    dateLong := "1 de enero de 2024"
    dateFile := "01012024"
    splitTextToSize := fun t _ => t.data.map (fun c => String.mk [c])
    autoTable := fun y body => ⟨y + 10 * ((body.length : ℚ) + 1), 0⟩ }

/-- The default `studio = {}`. -/
def noStudio : Studio := { name := none, phone := none, website := none }

/-- A state on the first page with the cursor at `y`. -/
def stAt (y : ℚ) : St := { initSt with y := y }

/-- A group in which every field holds 90, except `contornoCuello` which holds 0. -/
def zeroNeck : Group :=
  fun name => if name = "contornoCuello" then JsValue.number 0 else JsValue.number 90

/-- A record whose 34 fields all hold a number; the neck girth is 0. -/
def zeroNeckMeasure : Measure :=
  { label := none, fitType := none, fabricType := none, suggestedSize := none,
    technicalNotes := none,
    upper := some zeroNeck,
    arms := some (fun _ => JsValue.number 60),
    pants := some (fun _ => JsValue.number 100),
    lower := some (fun _ => JsValue.number 40) }

/-- A record whose 34 fields all hold a nonzero number. -/
def fullMeasure : Measure :=
  { zeroNeckMeasure with upper := some (fun _ => JsValue.number 90) }

/-- A record with nothing but a technical note. -/
def notesOnly (t : String) : Measure :=
  { label := none, fitType := none, fabricType := none, suggestedSize := none,
    technicalNotes := some t, upper := none, arms := none, pants := none, lower := none }

/-- The client of the specification example. -/
def anaLopez : Client :=
  { name := some "Ana López", gender := none, phone := none, email := none }

/-! ## Basic facts about the helpers -/

@[simp]
theorem draw_y (op : Op) (s : St) : (draw op s).y = s.y := rfl

@[simp]
theorem draw_pageCount (op : Op) (s : St) : (draw op s).pageCount = s.pageCount := rfl

@[simp]
theorem draw_footers (op : Op) (s : St) : (draw op s).footers = s.footers := rfl

@[simp]
theorem draw_page (op : Op) (s : St) : (draw op s).doc.page = s.doc.page := rfl

@[simp]
theorem draw_ops (op : Op) (s : St) :
    (draw op s).doc.ops = s.doc.ops ++ [(s.doc.page, op)] := rfl

@[simp]
theorem drawFooter_y (env : Env) (studio : Studio) (n : Nat) (s : St) :
    (drawFooter env studio n s).y = s.y := by
  simp only [drawFooter]; split <;> rfl

@[simp]
theorem drawFooter_pageCount (env : Env) (studio : Studio) (n : Nat) (s : St) :
    (drawFooter env studio n s).pageCount = s.pageCount := by
  simp only [drawFooter]; split <;> rfl

@[simp]
theorem drawFooter_page (env : Env) (studio : Studio) (n : Nat) (s : St) :
    (drawFooter env studio n s).doc.page = s.doc.page := by
  simp only [drawFooter]; split <;> rfl

@[simp]
theorem drawFooter_footers (env : Env) (studio : Studio) (n : Nat) (s : St) :
    (drawFooter env studio n s).footers = s.footers ++ [⟨s.doc.page, n, pageLabel n⟩] := by
  simp only [drawFooter]; split <;> rfl

/-! ## Page breaks -/

/-- C1. `ensureSpace(needed)` on the state (cursor, page counter, footers drawn,
document): when `y + needed + 20 > PAGE_H` it draws the footer numbered with the
current `pageCount` (on the current page, and nothing else), adds one page,
increases `pageCount` by exactly one and puts the cursor at 20; when `y + needed + 20 <= PAGE_H` the
state is returned unchanged. -/
theorem ensureSpace_contract (env : Env) (studio : Studio) (needed : ℚ) (s : St) :
    (s.y + needed + 20 > env.PAGE_H →
      (ensureSpace env studio needed s).footers =
          s.footers ++ [⟨s.doc.page, s.pageCount, "Página " ++ toString s.pageCount⟩] ∧
        (ensureSpace env studio needed s).doc.ops =
          (drawFooter env studio s.pageCount s).doc.ops ∧
        (ensureSpace env studio needed s).doc.page = s.doc.page + 1 ∧
        (ensureSpace env studio needed s).pageCount = s.pageCount + 1 ∧
        (ensureSpace env studio needed s).y = 20) ∧
    (s.y + needed + 20 ≤ env.PAGE_H → ensureSpace env studio needed s = s) := by
  constructor
  · intro h
    have h' : s.y > env.PAGE_H - needed - 20 := by linarith
    simp [ensureSpace, h', addPage, pageLabel]
  · intro h
    have h' : ¬ s.y > env.PAGE_H - needed - 20 := by
      intro hc
      linarith
    simp [ensureSpace, h']

/-- Witness for C1: on an A4 page a block of 30 breaks the page at `y = 250`
and does not at `y = 100`. -/
theorem ensureSpace_contract_witness :
    ((ensureSpace sampleEnv noStudio 30 (stAt 250)).footers = [⟨1, 1, "Página 1"⟩] ∧
        (ensureSpace sampleEnv noStudio 30 (stAt 250)).doc.ops =
          (drawFooter sampleEnv noStudio 1 (stAt 250)).doc.ops ∧
        (ensureSpace sampleEnv noStudio 30 (stAt 250)).doc.page = 2 ∧
        (ensureSpace sampleEnv noStudio 30 (stAt 250)).pageCount = 2 ∧
        (ensureSpace sampleEnv noStudio 30 (stAt 250)).y = 20) ∧
      ensureSpace sampleEnv noStudio 30 (stAt 100) = stAt 100 :=
  ⟨(ensureSpace_contract sampleEnv noStudio 30 (stAt 250)).1
      (by norm_num [stAt, sampleEnv]),
    (ensureSpace_contract sampleEnv noStudio 30 (stAt 100)).2
      (by norm_num [stAt, sampleEnv])⟩

/-- C9, as stated, fails: at `y = 250` on an A4 page a band of 12 still fits
above the bottom margin (250 + 12 + 20 <= 297), so a header that reserved 12
would be drawn at 250 on page 1 and leave the cursor at 262; the code reserves
30, breaks the page, draws the bar at 20 on page 2 and leaves the cursor at 32. -/
theorem drawSectionHeader_reserves_more_than_band :
    (specSectionHeader sampleEnv noStudio "2" "Medidas de Brazo (6)" (stAt 250)).y = 262 ∧
      (specSectionHeader sampleEnv noStudio "2" "Medidas de Brazo (6)" (stAt 250)).pageCount = 1 ∧
      (drawSectionHeader sampleEnv noStudio "2" "Medidas de Brazo (6)" (stAt 250)).y = 32 ∧
      (drawSectionHeader sampleEnv noStudio "2" "Medidas de Brazo (6)" (stAt 250)).pageCount = 2 ∧
      drawSectionHeader sampleEnv noStudio "2" "Medidas de Brazo (6)" (stAt 250) ≠
        specSectionHeader sampleEnv noStudio "2" "Medidas de Brazo (6)" (stAt 250) := by
  have h1 : (specSectionHeader sampleEnv noStudio "2" "Medidas de Brazo (6)" (stAt 250)).pageCount
      = 1 := by
    norm_num [specSectionHeader, ensureSpace, stAt, sampleEnv, initSt]
  have h2 : (drawSectionHeader sampleEnv noStudio "2" "Medidas de Brazo (6)" (stAt 250)).pageCount
      = 2 := by
    norm_num [drawSectionHeader, ensureSpace, stAt, sampleEnv, initSt, addPage]
  refine ⟨?_, h1, ?_, h2, ?_⟩
  · norm_num [specSectionHeader, ensureSpace, stAt, sampleEnv, initSt]
  · norm_num [drawSectionHeader, ensureSpace, stAt, sampleEnv, initSt, addPage]
  · intro h
    rw [h, h1] at h2
    exact absurd h2 (by decide)

/-- C9, amended. `drawSectionHeader` first calls `ensureSpace(30)`: it asks for
30, more than the band height plus gap (8 + 4 = 12) by which the cursor
advances. Only then the bar and its title are drawn, at the cursor and on the
page that `ensureSpace(30)` left; on return the cursor is that cursor plus 12,
and the page counter and the footers are the ones `ensureSpace(30)` left. -/
theorem drawSectionHeader_contract (env : Env) (studio : Studio) (number title : String)
    (s : St) :
    (drawSectionHeader env studio number title s).doc.ops =
        (ensureSpace env studio 30 s).doc.ops ++
          [((ensureSpace env studio 30 s).doc.page,
              Op.roundedRect MARGIN (ensureSpace env studio 30 s).y (env.PAGE_W - MARGIN * 2) 8),
            ((ensureSpace env studio 30 s).doc.page,
              Op.text (number ++ ". " ++ title) (MARGIN + 4)
                ((ensureSpace env studio 30 s).y + 5.8))] ∧
      (drawSectionHeader env studio number title s).y = (ensureSpace env studio 30 s).y + 12 ∧
      (drawSectionHeader env studio number title s).doc.page =
        (ensureSpace env studio 30 s).doc.page ∧
      (drawSectionHeader env studio number title s).pageCount =
        (ensureSpace env studio 30 s).pageCount ∧
      (drawSectionHeader env studio number title s).footers =
        (ensureSpace env studio 30 s).footers := by
  refine ⟨?_, ?_, rfl, rfl, rfl⟩
  · simp [drawSectionHeader]
  · simp only [drawSectionHeader, draw_y]
    norm_num

/-! ## Row packing -/

theorem toDoubleRowsLoop_eq (n : Nat) : ∀ (rows : List Row) (i : Nat) (acc : List (List String)),
    rows.length - i ≤ n → toDoubleRowsLoop rows i acc = acc ++ pairUp (rows.drop i) := by
  induction n with
  | zero =>
    intro rows i acc h
    have hi : ¬ i < rows.length := by omega
    rw [toDoubleRowsLoop, if_neg hi, List.drop_eq_nil_of_le (by omega)]
    simp [pairUp]
  | succ n ih =>
    intro rows i acc h
    by_cases hi : i < rows.length
    · rw [toDoubleRowsLoop, if_pos hi]
      simp only []
      rw [ih rows (i + 2) _ (by omega)]
      rw [List.drop_eq_getElem_cons hi]
      by_cases hi1 : i + 1 < rows.length
      · rw [List.drop_eq_getElem_cons hi1]
        simp [pairUp, List.getElem?_eq_getElem hi, List.getElem?_eq_getElem hi1]
      · rw [List.drop_eq_nil_of_le (by omega : rows.length ≤ i + 1),
          List.drop_eq_nil_of_le (by omega : rows.length ≤ i + 2)]
        have hnone : rows[i + 1]? = none := List.getElem?_eq_none (by omega)
        simp [pairUp, List.getElem?_eq_getElem hi, hnone]
    · rw [toDoubleRowsLoop, if_neg hi, List.drop_eq_nil_of_le (by omega)]
      simp [pairUp]

theorem toDoubleRows_eq_pairUp (rows : List Row) : toDoubleRows rows = pairUp rows := by
  simp [toDoubleRows, toDoubleRowsLoop_eq rows.length rows 0 [] (by omega)]

theorem pairUp_length : ∀ (n : Nat) (rows : List Row), rows.length ≤ n →
    (pairUp rows).length = (rows.length + 1) / 2 := by
  intro n
  induction n using Nat.strong_induction_on with
  | _ n ih =>
    intro rows h
    match rows, h with
    | [], _ => rfl
    | [a], _ => simp [pairUp]
    | a :: b :: t, h =>
      simp only [List.length_cons] at h
      simp only [pairUp, List.length_cons]
      rw [ih t.length (by omega) t le_rfl]
      omega

theorem pairUp_getElem? : ∀ (n : Nat) (rows : List Row) (k : Nat), rows.length ≤ n →
    (pairUp rows)[k]? =
      (rows[2 * k]?).map (fun a =>
        [a.1, a.2, ((rows[2 * k + 1]?).getD ("", "")).1, ((rows[2 * k + 1]?).getD ("", "")).2]) := by
  intro n
  induction n using Nat.strong_induction_on with
  | _ n ih =>
    intro rows k h
    match rows, h with
    | [], _ => simp [pairUp]
    | [a], _ =>
      cases k with
      | zero => simp [pairUp]
      | succ k =>
        have e1 : 2 * (k + 1) = (2 * k + 1) + 1 := by omega
        simp [pairUp, e1]
    | a :: b :: t, h =>
      simp only [List.length_cons] at h
      cases k with
      | zero => simp [pairUp]
      | succ k =>
        have e1 : 2 * (k + 1) = (2 * k + 1) + 1 := by omega
        simp only [pairUp, List.getElem?_cons_succ, e1]
        rw [ih t.length (by omega) t k le_rfl]

/-- C2. `toDoubleRows` on a list of `L` pairs returns `ceil(L/2)` rows, each of
four cells; row `k` holds label and value of input pair `2k` followed by label
and value of input pair `2k+1`; when `L` is odd the last row holds the last
pair followed by two empty strings (blank, not the dash); the empty list gives
no rows. -/
theorem toDoubleRows_contract (rows : List Row) :
    (toDoubleRows rows).length = (rows.length + 1) / 2 ∧
      (∀ r ∈ toDoubleRows rows, r.length = 4) ∧
      (∀ k a b, rows[2 * k]? = some a → rows[2 * k + 1]? = some b →
        (toDoubleRows rows)[k]? = some [a.1, a.2, b.1, b.2]) ∧
      (∀ a, rows.length % 2 = 1 → rows[rows.length - 1]? = some a →
        (toDoubleRows rows)[(rows.length + 1) / 2 - 1]? = some [a.1, a.2, "", ""]) ∧
      (rows.length = 0 → toDoubleRows rows = []) := by
  rw [toDoubleRows_eq_pairUp]
  refine ⟨pairUp_length rows.length rows le_rfl, ?_, ?_, ?_, ?_⟩
  · intro r hr
    obtain ⟨k, hk⟩ := List.mem_iff_getElem?.1 hr
    rw [pairUp_getElem? rows.length rows k le_rfl] at hk
    cases h : rows[2 * k]? with
    | none => simp [h] at hk
    | some a =>
      simp only [h, Option.map_some', Option.some.injEq] at hk
      rw [← hk]
      rfl
  · intro k a b ha hb
    rw [pairUp_getElem? rows.length rows k le_rfl, ha, hb]
    rfl
  · intro a hodd ha
    have hk : 2 * ((rows.length + 1) / 2 - 1) = rows.length - 1 := by omega
    have hnone : rows[rows.length - 1 + 1]? = none := List.getElem?_eq_none (by omega)
    rw [pairUp_getElem? rows.length rows _ le_rfl, hk, ha, hnone]
    rfl
  · intro h
    rw [List.length_eq_zero.1 h]
    rfl

/-- Witness for C2: three pairs give two rows, the second one padded with
blanks; two pairs give one full row. -/
theorem toDoubleRows_contract_witness :
    toDoubleRows [("a", "1 cm"), ("b", "—"), ("c", "3 cm")] =
        [["a", "1 cm", "b", "—"], ["c", "3 cm", "", ""]] ∧
      (toDoubleRows [("a", "1 cm"), ("b", "—"), ("c", "3 cm")])[0]? =
        some ["a", "1 cm", "b", "—"] ∧
      (toDoubleRows [("a", "1 cm"), ("b", "—"), ("c", "3 cm")])[1]? =
        some ["c", "3 cm", "", ""] ∧
      toDoubleRows [] = [] :=
  ⟨by simp [toDoubleRows, toDoubleRowsLoop],
    (toDoubleRows_contract [("a", "1 cm"), ("b", "—"), ("c", "3 cm")]).2.2.1 0
      ("a", "1 cm") ("b", "—") rfl rfl,
    (toDoubleRows_contract [("a", "1 cm"), ("b", "—"), ("c", "3 cm")]).2.2.2.1
      ("c", "3 cm") rfl rfl,
    (toDoubleRows_contract []).2.2.2.2 rfl⟩

/-! ## Value cells and the summary count -/

theorem dash_length : ("—" : String).length = 1 := by decide

theorem append_cm_ne_dash (t : String) : t ++ " cm" ≠ "—" := by
  intro h
  have h1 : (t ++ " cm").length = ("—" : String).length := by rw [h]
  rw [String.length_append, dash_length] at h1
  have h2 : (" cm" : String).length = 3 := by decide
  omega

theorem cell_eq_dash_iff (env : Env) (v : JsValue) : cell env v = "—" ↔ v.truthy = false := by
  unfold cell
  cases h : v.truthy with
  | true => simpa using append_cm_ne_dash (v.toStr env)
  | false => simp

theorem presentCount_groupRows (env : Env) (fields : List (String × String)) (g : Group) :
    presentCount (groupRows env fields g) = fields.countP (fun f => (g f.2).truthy) := by
  unfold presentCount groupRows
  rw [← List.countP_eq_length_filter, List.countP_map]
  apply List.countP_congr
  intro f _
  have := cell_eq_dash_iff env (g f.2)
  cases h : (g f.2).truthy <;> simp_all

theorem totalMeasures_eq_truthy (env : Env) (measure : Option Measure) :
    totalMeasures env measure = truthyFieldCount measure := by
  simp only [totalMeasures, upperRows, armRows, pantsRows, lowerRows, presentCount_groupRows,
    truthyFieldCount, fieldCount]

theorem fieldCount_le (p : JsValue → Bool) (measure : Option Measure) :
    fieldCount p measure ≤ 34 := by
  have h1 : upperFields.countP (fun f => p (groupOf measure Measure.upper f.2)) ≤ _ :=
    List.countP_le_length _
  have h2 : armFields.countP (fun f => p (groupOf measure Measure.arms f.2)) ≤ _ :=
    List.countP_le_length _
  have h3 : pantsFields.countP (fun f => p (groupOf measure Measure.pants f.2)) ≤ _ :=
    List.countP_le_length _
  have h4 : lowerFields.countP (fun f => p (groupOf measure Measure.lower f.2)) ≤ _ :=
    List.countP_le_length _
  have e1 : upperFields.length = 14 := rfl
  have e2 : armFields.length = 6 := rfl
  have e3 : pantsFields.length = 6 := rfl
  have e4 : lowerFields.length = 8 := rfl
  unfold fieldCount
  omega

theorem truthy_eq_false_iff (v : JsValue) :
    v.truthy = false ↔
      (v = JsValue.undefined ∨ v = JsValue.null ∨ v = JsValue.nan ∨ v = JsValue.number 0 ∨
        v = JsValue.string "") := by
  cases v <;> simp [JsValue.truthy]

/-- C3, as stated, fails: in `zeroNeckMeasure` the field `contornoCuello` is
present and holds the number 0, yet its value cell is the placeholder and not
the text made of the number followed by " cm". -/
theorem zero_value_rendered_as_placeholder :
    groupOf (some zeroNeckMeasure) Measure.upper "contornoCuello" = JsValue.number 0 ∧
      (upperRows sampleEnv (some zeroNeckMeasure))[0]? = some ("Contorno de cuello", "—") ∧
      "—" ≠ sampleEnv.numToString 0 ++ " cm" := by
  refine ⟨?_, ?_, fun h => append_cm_ne_dash _ h.symm⟩
  · simp [groupOf, zeroNeckMeasure, zeroNeck]
  · simp [upperRows, groupRows, upperFields, groupOf, zeroNeckMeasure, zeroNeck, cell,
      JsValue.truthy]

/-- C3, amended. For every record, the four row lists hold, in source order, one
entry per field (14, 6, 6 and 8 of them) whose value cell is built from that
field alone; the cell is the placeholder "—" exactly when the field is falsy
(absent, null, NaN, the number 0 or the empty string), and it is the text
`<v> cm` whenever the field holds a nonzero number `v`: a nonzero number is
never rendered as the placeholder and an absent field is never rendered as a
number. -/
theorem value_cell_contract (env : Env) (measure : Option Measure) :
    (upperRows env measure =
        upperFields.map (fun f => (f.1, cell env (groupOf measure Measure.upper f.2))) ∧
      armRows env measure =
        armFields.map (fun f => (f.1, cell env (groupOf measure Measure.arms f.2))) ∧
      pantsRows env measure =
        pantsFields.map (fun f => (f.1, cell env (groupOf measure Measure.pants f.2))) ∧
      lowerRows env measure =
        lowerFields.map (fun f => (f.1, cell env (groupOf measure Measure.lower f.2)))) ∧
    (upperFields.length = 14 ∧ armFields.length = 6 ∧ pantsFields.length = 6 ∧
      lowerFields.length = 8) ∧
    (∀ v : JsValue,
      (cell env v = "—" ↔
        (v = JsValue.undefined ∨ v = JsValue.null ∨ v = JsValue.nan ∨ v = JsValue.number 0 ∨
          v = JsValue.string "")) ∧
      (∀ q : ℚ, v = JsValue.number q → q ≠ 0 →
        cell env v = env.numToString q ++ " cm" ∧ cell env v ≠ "—")) := by
  refine ⟨⟨rfl, rfl, rfl, rfl⟩, ⟨rfl, rfl, rfl, rfl⟩, ?_⟩
  intro v
  refine ⟨?_, ?_⟩
  · rw [cell_eq_dash_iff, truthy_eq_false_iff]
  · intro q hv hq
    subst hv
    have hc : cell env (JsValue.number q) = env.numToString q ++ " cm" := by
      simp [cell, JsValue.truthy, JsValue.toStr, hq]
    exact ⟨hc, by rw [hc]; exact append_cm_ne_dash _⟩

/-- Witness for C3: a field holding 90 is rendered with the number and the unit,
not as the placeholder. -/
theorem value_cell_contract_witness :
    cell sampleEnv (JsValue.number 90) = sampleEnv.numToString 90 ++ " cm" ∧
      cell sampleEnv (JsValue.number 90) ≠ "—" :=
  ((value_cell_contract sampleEnv (some fullMeasure)).2.2 (JsValue.number 90)).2 90 rfl
    (by norm_num)

/-- C4. For every record, `totalMeasures` is the number of entries of the four
row lists `upperRows`, `armRows`, `pantsRows`, `lowerRows` whose value cell is
not the placeholder "—"; the lists have 14, 6, 6 and 8 entries whatever the
input, so `totalMeasures` is at most 34. -/
theorem totalMeasures_contract (env : Env) (measure : Option Measure) :
    totalMeasures env measure =
        List.countP (fun r => decide (r.2 ≠ "—"))
          (upperRows env measure ++ armRows env measure ++ pantsRows env measure ++
            lowerRows env measure) ∧
      (upperRows env measure).length = 14 ∧ (armRows env measure).length = 6 ∧
      (pantsRows env measure).length = 6 ∧ (lowerRows env measure).length = 8 ∧
      0 ≤ totalMeasures env measure ∧ totalMeasures env measure ≤ 34 := by
  refine ⟨?_, ?_, ?_, ?_, ?_, Nat.zero_le _, ?_⟩
  · simp only [totalMeasures, presentCount, List.countP_eq_length_filter, List.filter_append,
      List.length_append]
  · simp [upperRows, groupRows, upperFields]
  · simp [armRows, groupRows, armFields]
  · simp [pantsRows, groupRows, pantsFields]
  · simp [lowerRows, groupRows, lowerFields]
  · rw [totalMeasures_eq_truthy]
    exact fieldCount_le _ _

theorem total_text_ne_empty (t : String) : "Total medidas: " ++ t ++ " / 34" ≠ "" := by
  intro h
  have h1 : ("Total medidas: " ++ t ++ " / 34").length = ("" : String).length := by rw [h]
  rw [String.length_append, String.length_append] at h1
  have h2 : (" / 34" : String).length = 5 := by decide
  have h3 : ("" : String).length = 0 := by decide
  omega

theorem summaryItems_head (env : Env) (measure : Option Measure) :
    (summaryItems env measure).head? =
      some ("Total medidas: " ++ toString (totalMeasures env measure) ++ " / 34") := by
  have h := total_text_ne_empty (toString (totalMeasures env measure))
  simp [summaryItems, List.filterMap_cons, strTruthy, h]

theorem fieldCount_eq_34 (p : JsValue → Bool) (measure : Option Measure)
    (hu : ∀ f ∈ upperFields, p (groupOf measure Measure.upper f.2) = true)
    (ha : ∀ f ∈ armFields, p (groupOf measure Measure.arms f.2) = true)
    (hp : ∀ f ∈ pantsFields, p (groupOf measure Measure.pants f.2) = true)
    (hl : ∀ f ∈ lowerFields, p (groupOf measure Measure.lower f.2) = true) :
    fieldCount p measure = 34 := by
  unfold fieldCount
  rw [List.countP_eq_length.2 hu, List.countP_eq_length.2 ha, List.countP_eq_length.2 hp,
    List.countP_eq_length.2 hl]
  rfl

/-- C5, as stated, fails: all 34 fields of `zeroNeckMeasure` hold a number, yet
the first summary item reads 33 / 34, because the field holding 0 is not
counted. -/
theorem summary_skips_zero_value :
    numericFieldCount (some zeroNeckMeasure) = 34 ∧
      (summaryItems sampleEnv (some zeroNeckMeasure)).head? = some "Total medidas: 33 / 34" := by
  constructor
  · apply fieldCount_eq_34
    · intro f _
      by_cases h : f.2 = "contornoCuello" <;>
        simp [groupOf, zeroNeckMeasure, zeroNeck, JsValue.isNumber, h]
    · intro f _
      simp [groupOf, zeroNeckMeasure, JsValue.isNumber]
    · intro f _
      simp [groupOf, zeroNeckMeasure, JsValue.isNumber]
    · intro f _
      simp [groupOf, zeroNeckMeasure, JsValue.isNumber]
  · rw [summaryItems_head, totalMeasures_eq_truthy]
    have h : truthyFieldCount (some zeroNeckMeasure) = 33 := by
      simp [truthyFieldCount, fieldCount, groupOf, zeroNeckMeasure, zeroNeck, JsValue.truthy,
        upperFields, armFields, pantsFields, lowerFields]
    rw [h]
    rfl

/-- C5, amended. For every record, the first summary item is the text
"Total medidas: N / 34" where N is the number of the 34 measurement fields whose
value is truthy (present and, for a number, different from 0); in particular,
for every record in which all 34 fields hold a truthy value (such as a nonzero
number) the text is exactly "Total medidas: 34 / 34". -/
theorem summary_total_contract (env : Env) (measure : Option Measure) :
    (summaryItems env measure).head? =
        some ("Total medidas: " ++ toString (truthyFieldCount measure) ++ " / 34") ∧
      ((∀ f ∈ upperFields, (groupOf measure Measure.upper f.2).truthy = true) →
        (∀ f ∈ armFields, (groupOf measure Measure.arms f.2).truthy = true) →
        (∀ f ∈ pantsFields, (groupOf measure Measure.pants f.2).truthy = true) →
        (∀ f ∈ lowerFields, (groupOf measure Measure.lower f.2).truthy = true) →
        (summaryItems env measure).head? = some "Total medidas: 34 / 34") := by
  refine ⟨?_, ?_⟩
  · rw [summaryItems_head, totalMeasures_eq_truthy]
  · intro hu ha hp hl
    rw [summaryItems_head, totalMeasures_eq_truthy]
    have h : truthyFieldCount measure = 34 := fieldCount_eq_34 _ _ hu ha hp hl
    rw [h]
    rfl

/-- Witness for C5: in `fullMeasure` every field holds a nonzero number and the
summary reads 34 / 34. -/
theorem summary_total_contract_witness :
    (summaryItems sampleEnv (some fullMeasure)).head? = some "Total medidas: 34 / 34" :=
  (summary_total_contract sampleEnv (some fullMeasure)).2
    (fun f _ => by simp [groupOf, fullMeasure, JsValue.truthy])
    (fun f _ => by simp [groupOf, fullMeasure, zeroNeckMeasure, JsValue.truthy])
    (fun f _ => by simp [groupOf, fullMeasure, zeroNeckMeasure, JsValue.truthy])
    (fun f _ => by simp [groupOf, fullMeasure, zeroNeckMeasure, JsValue.truthy])

/-! ## Bookkeeping of pages and footers -/

theorem pagesClosed_of_same {s t : St} (h : PagesClosed s) (h1 : t.pageCount = s.pageCount)
    (h2 : t.doc.page = s.doc.page) (h3 : t.footers = s.footers) : PagesClosed t := by
  unfold PagesClosed at *
  rw [h1, h2, h3]
  exact h

theorem pagesClosed_ensureSpace {s : St} (h : PagesClosed s) (env : Env) (studio : Studio)
    (needed : ℚ) : PagesClosed (ensureSpace env studio needed s) := by
  unfold ensureSpace
  split
  · obtain ⟨h1, h2, h3⟩ := h
    refine ⟨?_, ?_, ?_⟩
    · simp [addPage]
    · simp [addPage, h2]
    · simp only [addPage, drawFooter_footers, drawFooter_pageCount, h3, h2, pageLabel]
      obtain ⟨k, hk⟩ : ∃ k, s.pageCount = k + 1 := ⟨s.pageCount - 1, by omega⟩
      rw [hk]
      simp only [Nat.add_sub_cancel, List.range'_concat, List.map_append, List.map_cons,
        List.map_nil, footerOf]
      simp [Nat.add_comm]
  · exact h

theorem pagesClosed_foldl {α : Type} (f : St → α → St)
    (hf : ∀ s a, PagesClosed s → PagesClosed (f s a)) :
    ∀ (l : List α) (s : St), PagesClosed s → PagesClosed (l.foldl f s) := by
  intro l
  induction l with
  | nil => intro s h; exact h
  | cons a l ih => intro s h; exact ih _ (hf s a h)

theorem pagesClosed_clientRow {s : St} (h : PagesClosed s) (env : Env) (left right : List Row)
    (i : Nat) : PagesClosed (clientRow env left right s i) := by
  unfold clientRow
  cases left[i]? <;> cases right[i]? <;> exact pagesClosed_of_same h rfl rfl rfl

theorem pagesClosed_clientStage {s : St} (h : PagesClosed s) (env : Env) (client : Client)
    (measure : Option Measure) : PagesClosed (clientStage env client measure s) := by
  unfold clientStage
  have h4 : PagesClosed
      ({ (draw (Op.line MARGIN (50 + 2) (MARGIN + 40) (50 + 2))
            { (draw (Op.text "Datos del Cliente" MARGIN 50) { s with y := 50 }) with
              y := 50 + 2 }) with y := 50 + 2 + 6 } : St) :=
    pagesClosed_of_same h rfl rfl rfl
  exact pagesClosed_of_same
    (pagesClosed_foldl _ (fun s a hs => pagesClosed_clientRow hs env _ _ a) _ _ h4) rfl rfl rfl

theorem pagesClosed_drawSectionHeader {s : St} (h : PagesClosed s) (env : Env)
    (studio : Studio) (number title : String) :
    PagesClosed (drawSectionHeader env studio number title s) :=
  pagesClosed_of_same (pagesClosed_ensureSpace h env studio 30) rfl rfl rfl

theorem pagesClosed_measureSection {s : St} (h : PagesClosed s) (env : Env) (studio : Studio)
    (number title : String) (rows : List Row) (gap : ℚ)
    (hno : ∀ y body, (env.autoTable y body).pagesAdded = 0) :
    PagesClosed (measureSection env studio number title rows gap s) := by
  refine pagesClosed_of_same (pagesClosed_drawSectionHeader h env studio number title) rfl ?_ rfl
  simp [measureSection, hno]

theorem pagesClosed_summaryStage {s : St} (h : PagesClosed s) (env : Env) (studio : Studio)
    (measure : Option Measure) : PagesClosed (summaryStage env studio measure s) := by
  unfold summaryStage
  have h2 : PagesClosed (draw (Op.roundedRect MARGIN (ensureSpace env studio 25 s).y
      (env.PAGE_W - MARGIN * 2) 16) (ensureSpace env studio 25 s)) :=
    pagesClosed_of_same (pagesClosed_ensureSpace h env studio 25) rfl rfl rfl
  have h3 := pagesClosed_foldl
    (summaryText ((env.PAGE_W - MARGIN * 2) / (((summaryItems env measure).length : ℚ) + 1))
      (ensureSpace env studio 25 s).y)
    (fun s a hs => pagesClosed_of_same hs rfl rfl rfl) (summaryItems env measure).enum _ h2
  exact pagesClosed_of_same h3 rfl rfl rfl

theorem pagesClosed_notesStage {s : St} (h : PagesClosed s) (env : Env) (studio : Studio)
    (measure : Option Measure) : PagesClosed (notesStage env studio measure s) := by
  by_cases hc : strTruthy (measure.bind Measure.technicalNotes) = true
  · rw [notesStage]
    simp only [hc, if_true]
    exact pagesClosed_of_same (pagesClosed_ensureSpace h env studio 45) rfl rfl rfl
  · rw [notesStage]
    simp only [hc]
    exact h

theorem pagesClosed_beforeNotes (env : Env) (client : Client) (measure : Option Measure)
    (studio : Studio) (hno : ∀ y body, (env.autoTable y body).pagesAdded = 0) :
    PagesClosed (beforeNotes env client measure studio) := by
  have h0 : PagesClosed initSt := ⟨le_rfl, rfl, rfl⟩
  have h1 : PagesClosed (headerStage env studio initSt) := pagesClosed_of_same h0 rfl rfl rfl
  have h2 := pagesClosed_clientStage h1 env client measure
  have h3 := pagesClosed_measureSection h2 env studio "1" "Medidas Delanteras (14)"
    (upperRows env measure) 8 hno
  have h4 := pagesClosed_measureSection h3 env studio "2" "Medidas de Brazo (6)"
    (armRows env measure) 8 hno
  have h5 := pagesClosed_measureSection h4 env studio "3" "Medidas de Pantalón / Falda (6)"
    (pantsRows env measure) 8 hno
  have h6 := pagesClosed_measureSection h5 env studio "4" "Medidas Traseras (8)"
    (lowerRows env measure) 10 hno
  exact pagesClosed_summaryStage h6 env studio measure

/-! ## Notes block -/

theorem boxH_bounds (n : Nat) : 20 ≤ boxH n ∧ boxH n ≤ 50 := by
  unfold boxH
  refine ⟨le_max_left _ _, max_le (by norm_num) (min_le_right _ _)⟩

theorem notesStage_ops (env : Env) (studio : Studio) (measure : Option Measure) (s : St)
    (t : String) (h : measure.bind Measure.technicalNotes = some t) (ht : t ≠ "") :
    (notesStage env studio measure s).doc.ops =
      (ensureSpace env studio 45 s).doc.ops ++
        [((ensureSpace env studio 45 s).doc.page,
            Op.text "Notas Técnicas" MARGIN (ensureSpace env studio 45 s).y),
          ((ensureSpace env studio 45 s).doc.page,
            Op.roundedRect MARGIN ((ensureSpace env studio 45 s).y + 5)
              (env.PAGE_W - MARGIN * 2) (boxH (noteLinesOf env t).length)),
          ((ensureSpace env studio 45 s).doc.page,
            Op.textLines (shownLines (noteLinesOf env t)) (MARGIN + 5)
              ((ensureSpace env studio 45 s).y + 5 + 7))] := by
  simp [notesStage, h, strTruthy, ht]

theorem notesStage_pageCount (env : Env) (studio : Studio) (measure : Option Measure) (s : St) :
    (notesStage env studio measure s).pageCount =
      if strTruthy (measure.bind Measure.technicalNotes) then
        (ensureSpace env studio 45 s).pageCount
      else s.pageCount := by
  by_cases hc : strTruthy (measure.bind Measure.technicalNotes) = true
  · rw [notesStage]
    simp only [hc, if_true]
    rfl
  · rw [notesStage]
    simp only [hc]
    rfl

/-- C8. In the notes stage, for a note wrapped into `n` lines, the box is drawn
with height `max(20, min(4.5 n + 10, 50))`, which lies between 20 and 50
inclusive, and the lines printed are the first `min(n, 8)` wrapped lines in
order; for `n = 20` eight lines are printed and the height is exactly 50. -/
theorem notes_box_contract (env : Env) (studio : Studio) (measure : Option Measure) (s : St)
    (t : String) (h : measure.bind Measure.technicalNotes = some t) (ht : t ≠ "") :
    (notesStage env studio measure s).doc.ops =
        (ensureSpace env studio 45 s).doc.ops ++
          [((ensureSpace env studio 45 s).doc.page,
              Op.text "Notas Técnicas" MARGIN (ensureSpace env studio 45 s).y),
            ((ensureSpace env studio 45 s).doc.page,
              Op.roundedRect MARGIN ((ensureSpace env studio 45 s).y + 5)
                (env.PAGE_W - MARGIN * 2)
                (max 20 (min (((noteLinesOf env t).length : ℚ) * 4.5 + 10) 50))),
            ((ensureSpace env studio 45 s).doc.page,
              Op.textLines ((noteLinesOf env t).take (min (noteLinesOf env t).length 8))
                (MARGIN + 5) ((ensureSpace env studio 45 s).y + 5 + 7))] ∧
      20 ≤ max 20 (min (((noteLinesOf env t).length : ℚ) * 4.5 + 10) 50) ∧
      max 20 (min (((noteLinesOf env t).length : ℚ) * 4.5 + 10) 50) ≤ 50 ∧
      ((noteLinesOf env t).length = 20 →
        ((noteLinesOf env t).take (min (noteLinesOf env t).length 8)).length = 8 ∧
          max 20 (min (((noteLinesOf env t).length : ℚ) * 4.5 + 10) 50) = 50) := by
  have htake : (noteLinesOf env t).take (min (noteLinesOf env t).length 8) =
      shownLines (noteLinesOf env t) := by
    unfold shownLines
    rcases Nat.le_total (noteLinesOf env t).length 8 with h8 | h8
    · rw [Nat.min_eq_left h8, List.take_length, List.take_of_length_le h8]
    · rw [Nat.min_eq_right h8]
  refine ⟨?_, (boxH_bounds _).1, (boxH_bounds _).2, ?_⟩
  · rw [htake]
    exact notesStage_ops env studio measure s t h ht
  · intro h20
    rw [h20]
    constructor
    · simp [h20]
    · norm_num

/-- Witness for C8: a note that wraps into 20 lines is drawn in a box of height
50 with its first eight lines. -/
theorem notes_box_contract_witness :
    ((noteLinesOf sampleEnv "abcdefghijklmnopqrst").take
          (min (noteLinesOf sampleEnv "abcdefghijklmnopqrst").length 8)).length = 8 ∧
      max 20 (min (((noteLinesOf sampleEnv "abcdefghijklmnopqrst").length : ℚ) * 4.5 + 10) 50)
        = 50 :=
  (notes_box_contract sampleEnv noStudio (some (notesOnly "abcdefghijklmnopqrst")) (stAt 100)
    "abcdefghijklmnopqrst" rfl (by decide)).2.2.2 (by decide)

/-- C10 fails on the code. On an A4 page with the cursor at 232 before the notes
stage and a note of eight wrapped lines, `ensureSpace(45)` does not break the
page (232 + 45 + 20 = 297); the title is drawn at 232 and the box from 237 to
237 + 46 = 283, below the bottom margin at 297 - 20 = 277 and across the footer
rule at 297 - 16 = 281. -/
theorem notes_box_crosses_footer_rule :
    (notesStage sampleEnv noStudio (some (notesOnly "abcdefgh")) (stAt 232)).doc.ops =
        [(1, Op.text "Notas Técnicas" 18 232),
          (1, Op.roundedRect 18 237 174 46),
          (1, Op.textLines ["a", "b", "c", "d", "e", "f", "g", "h"] 23 244)] ∧
      (notesStage sampleEnv noStudio (some (notesOnly "abcdefgh")) (stAt 232)).pageCount = 1 ∧
      ¬ ((237 : ℚ) + 46 ≤ sampleEnv.PAGE_H - 20) ∧
      (237 : ℚ) + 46 > sampleEnv.PAGE_H - 16 := by
  refine ⟨?_, ?_, ?_, ?_⟩
  · rw [notesStage_ops sampleEnv noStudio (some (notesOnly "abcdefgh")) (stAt 232)
      "abcdefgh" rfl (by decide)]
    have hl : noteLinesOf sampleEnv "abcdefgh" = ["a", "b", "c", "d", "e", "f", "g", "h"] := by
      decide
    have he : ensureSpace sampleEnv noStudio 45 (stAt 232) = stAt 232 := by
      norm_num [ensureSpace, stAt, sampleEnv, initSt]
    rw [hl, he]
    norm_num [stAt, initSt, MARGIN, sampleEnv, boxH, shownLines]
  · have he : ensureSpace sampleEnv noStudio 45 (stAt 232) = stAt 232 := by
      norm_num [ensureSpace, stAt, sampleEnv, initSt]
    rw [notesStage_pageCount, he]
    rfl
  · norm_num [sampleEnv]
  · norm_num [sampleEnv]

/-! ## Cursor and page counter after each stage -/

theorem ensureSpace_y (env : Env) (studio : Studio) (needed : ℚ) (s : St) :
    (ensureSpace env studio needed s).y = if s.y > env.PAGE_H - needed - 20 then 20 else s.y := by
  unfold ensureSpace
  split <;> rfl

theorem ensureSpace_pageCount (env : Env) (studio : Studio) (needed : ℚ) (s : St) :
    (ensureSpace env studio needed s).pageCount =
      if s.y > env.PAGE_H - needed - 20 then s.pageCount + 1 else s.pageCount := by
  unfold ensureSpace
  split
  · simp [addPage]
  · rfl

theorem foldl_keeps {α β : Type} (g : St → β) (f : St → α → St)
    (h : ∀ s a, g (f s a) = g s) : ∀ (l : List α) (s : St), g (l.foldl f s) = g s := by
  intro l
  induction l with
  | nil => intro s; rfl
  | cons a l ih => intro s; rw [List.foldl_cons, ih, h]

theorem clientRow_y (env : Env) (left right : List Row) (s : St) (i : Nat) :
    (clientRow env left right s i).y = s.y + 6 := by
  unfold clientRow
  cases left[i]? <;> cases right[i]? <;> rfl

theorem clientRow_pageCount (env : Env) (left right : List Row) (s : St) (i : Nat) :
    (clientRow env left right s i).pageCount = s.pageCount := by
  unfold clientRow
  cases left[i]? <;> cases right[i]? <;> rfl

theorem clientRows_y (env : Env) (left right : List Row) :
    ∀ (l : List Nat) (s : St),
      (l.foldl (clientRow env left right) s).y = s.y + 6 * (l.length : ℚ) := by
  intro l
  induction l with
  | nil => intro s; simp
  | cons a l ih =>
    intro s
    rw [List.foldl_cons, ih, clientRow_y, List.length_cons]
    push_cast
    ring

theorem clientStage_y (env : Env) (client : Client) (measure : Option Measure) (s : St) :
    (clientStage env client measure s).y =
      64 + 6 * ((max (leftFields client).length (rightFields measure).length : Nat) : ℚ) := by
  simp only [clientStage, clientRows_y, draw_y, List.length_range]
  ring

theorem clientStage_pageCount (env : Env) (client : Client) (measure : Option Measure) (s : St) :
    (clientStage env client measure s).pageCount = s.pageCount := by
  simp only [clientStage]
  rw [foldl_keeps St.pageCount _ (fun s a => clientRow_pageCount env _ _ s a)]
  rfl

theorem measureSection_y (env : Env) (studio : Studio) (number title : String)
    (rows : List Row) (gap : ℚ) (s : St) :
    (measureSection env studio number title rows gap s).y =
      (env.autoTable ((ensureSpace env studio 30 s).y + 12) (toDoubleRows rows)).finalY + gap := by
  simp only [measureSection, drawSectionHeader, draw_y]
  norm_num

theorem measureSection_pageCount (env : Env) (studio : Studio) (number title : String)
    (rows : List Row) (gap : ℚ) (s : St) :
    (measureSection env studio number title rows gap s).pageCount =
      (ensureSpace env studio 30 s).pageCount := rfl

theorem summaryStage_y (env : Env) (studio : Studio) (measure : Option Measure) (s : St) :
    (summaryStage env studio measure s).y = (ensureSpace env studio 25 s).y + 24 := by
  simp only [summaryStage]
  rw [foldl_keeps St.y (summaryText _ _) (fun s a => rfl)]
  rfl

theorem summaryStage_pageCount (env : Env) (studio : Studio) (measure : Option Measure)
    (s : St) :
    (summaryStage env studio measure s).pageCount = (ensureSpace env studio 25 s).pageCount := by
  simp only [summaryStage]
  rw [foldl_keeps St.pageCount (summaryText _ _) (fun s a => rfl)]
  rfl

/-- The sample render of `zeroNeckMeasure` breaks the page once, before the fourth
section. -/
theorem sample_run_pageCount :
    (generatePDF sampleEnv anaLopez (some zeroNeckMeasure) noStudio).1.pageCount = 2 := by
  have hn : strTruthy ((some zeroNeckMeasure).bind Measure.technicalNotes) = false := rfl
  have hu : ((toDoubleRows (upperRows sampleEnv (some zeroNeckMeasure))).length : ℚ) = 7 := by
    rw [toDoubleRows_eq_pairUp, pairUp_length _ _ le_rfl]
    rfl
  have ha : ((toDoubleRows (armRows sampleEnv (some zeroNeckMeasure))).length : ℚ) = 3 := by
    rw [toDoubleRows_eq_pairUp, pairUp_length _ _ le_rfl]
    rfl
  have hp : ((toDoubleRows (pantsRows sampleEnv (some zeroNeckMeasure))).length : ℚ) = 3 := by
    rw [toDoubleRows_eq_pairUp, pairUp_length _ _ le_rfl]
    rfl
  have hl : ((toDoubleRows (lowerRows sampleEnv (some zeroNeckMeasure))).length : ℚ) = 4 := by
    rw [toDoubleRows_eq_pairUp, pairUp_length _ _ le_rfl]
    rfl
  have hH : sampleEnv.PAGE_H = 297 := rfl
  have hT : ∀ y body, (sampleEnv.autoTable y body).finalY = y + 10 * ((body.length : ℚ) + 1) :=
    fun _ _ => rfl
  have y2 : (clientStage sampleEnv anaLopez (some zeroNeckMeasure)
      (headerStage sampleEnv noStudio initSt)).y = 82 := by
    rw [clientStage_y]
    have : max (leftFields anaLopez).length (rightFields (some zeroNeckMeasure)).length = 3 := by
      decide
    rw [this]
    norm_num
  have p2 : (clientStage sampleEnv anaLopez (some zeroNeckMeasure)
      (headerStage sampleEnv noStudio initSt)).pageCount = 1 := by
    rw [clientStage_pageCount]
    rfl
  simp only [generatePDF, drawFooter_pageCount, notesStage_pageCount, hn, beforeNotes,
    Bool.false_eq_true, if_false]
  simp only [summaryStage_pageCount, summaryStage_y, measureSection_pageCount, measureSection_y,
    ensureSpace_pageCount, ensureSpace_y, y2, p2, hH, hT, hu, ha, hp, hl]
  norm_num

/-! ## Footers over the whole render -/

theorem isSpace_hyphen : isSpace '-' = false := by decide

theorem lowerChar_hyphen : lowerChar '-' = '-' := by decide

theorem isSpace_lowerChar (c : Char) : isSpace (lowerChar c) = isSpace c := by
  unfold lowerChar
  simp only []
  split
  · rename_i h
    have hc : isSpace c = false := by
      unfold isSpace
      simp only [Bool.or_eq_true, Bool.and_eq_true, decide_eq_true_eq, bne_iff_ne] at h
      simp only [Bool.or_eq_false_iff, Bool.and_eq_false_iff, decide_eq_false_iff_not,
        beq_eq_false_iff_ne]
      omega
    rw [hc]
    obtain ⟨n, hn⟩ : ∃ n, c.toNat = n := ⟨_, rfl⟩
    rw [hn] at h ⊢
    simp only [Bool.or_eq_true, Bool.and_eq_true, decide_eq_true_eq, bne_iff_ne] at h
    rcases h with ⟨h1, h2⟩ | ⟨⟨h1, h2⟩, _⟩
    · interval_cases n <;> decide
    · interval_cases n <;> decide
  · rfl

theorem replaceSpacesAux_cons (f : Bool) (c : Char) (cs : List Char) :
    replaceSpacesAux f (c :: cs) =
      if isSpace c then
        if f then replaceSpacesAux true cs else '-' :: replaceSpacesAux true cs
      else c :: replaceSpacesAux false cs := rfl

theorem replaceSpacesAux_no_space : ∀ (cs : List Char) (f : Bool),
    ∀ c ∈ replaceSpacesAux f cs, isSpace c = false := by
  intro cs
  induction cs with
  | nil => intro f c hc; simp [replaceSpacesAux] at hc
  | cons d ds ih =>
    intro f c hc
    unfold replaceSpacesAux at hc
    by_cases hd : isSpace d = true
    · cases f
      · simp only [hd, if_true, Bool.false_eq_true, if_false, List.mem_cons] at hc
        rcases hc with rfl | hc
        · exact isSpace_hyphen
        · exact ih true c hc
      · simp only [hd, if_true] at hc
        exact ih true c hc
    · simp only [hd, Bool.false_eq_true, if_false, List.mem_cons] at hc
      rcases hc with rfl | hc
      · simpa using hd
      · exact ih false c hc

theorem replaceSpacesAux_id : ∀ (w : List Char) (f : Bool),
    (∀ c ∈ w, isSpace c = false) → replaceSpacesAux f w = w := by
  intro w
  induction w with
  | nil => intro f _; rfl
  | cons d ds ih =>
    intro f h
    have hd : isSpace d = false := h d (List.mem_cons_self _ _)
    unfold replaceSpacesAux
    simp only [hd, Bool.false_eq_true, if_false]
    rw [ih false (fun c hc => h c (List.mem_cons_of_mem _ hc))]

theorem replaceSpacesAux_skip : ∀ (r b : List Char),
    (∀ c ∈ r, isSpace c = true) → replaceSpacesAux true (r ++ b) = replaceSpacesAux true b := by
  intro r
  induction r with
  | nil => intro b _; rfl
  | cons d ds ih =>
    intro b h
    have hd : isSpace d = true := h d (List.mem_cons_self _ _)
    rw [List.cons_append, replaceSpacesAux]
    simp only [hd, if_true]
    exact ih b (fun c hc => h c (List.mem_cons_of_mem _ hc))

theorem replaceSpacesAux_flag (b : List Char) (h : ∀ c, b.head? = some c → isSpace c = false) :
    replaceSpacesAux true b = replaceSpacesAux false b := by
  cases b with
  | nil => rfl
  | cons d ds =>
    have hd : isSpace d = false := h d rfl
    rw [replaceSpacesAux, replaceSpacesAux]
    simp only [hd, Bool.false_eq_true, if_false]

theorem replaceSpacesAux_append : ∀ (a : List Char) (f : Bool) (rest : List Char),
    (a = [] → f = false) → (∀ c, a.getLast? = some c → isSpace c = false) →
    replaceSpacesAux f (a ++ rest) = replaceSpacesAux f a ++ replaceSpacesAux false rest := by
  intro a
  induction a with
  | nil =>
    intro f rest hf _
    rw [hf rfl]
    rfl
  | cons d ds ih =>
    intro f rest _ hlast
    cases ds with
    | nil =>
      have hd : isSpace d = false := hlast d rfl
      simp only [List.cons_append, List.nil_append]
      rw [replaceSpacesAux, replaceSpacesAux]
      simp only [hd, Bool.false_eq_true, if_false]
      rfl
    | cons e es =>
      have hl : ∀ c, (e :: es).getLast? = some c → isSpace c = false := by
        intro c hc
        apply hlast c
        rw [List.getLast?_cons_cons]
        exact hc
      have ih1 := fun g => ih g rest (fun hne => absurd hne (List.cons_ne_nil _ _)) hl
      rw [List.cons_append, replaceSpacesAux_cons f d (e :: es ++ rest),
        replaceSpacesAux_cons f d (e :: es)]
      by_cases hd : isSpace d = true
      · cases f
        · simp only [hd, if_true, Bool.false_eq_true, if_false, List.cons_append]
          exact congrArg _ (ih1 true)
        · simp only [hd, if_true]
          exact ih1 true
      · simp only [hd, Bool.false_eq_true, if_false, List.cons_append]
        exact congrArg _ (ih1 false)

theorem replaceSpaces_split (a r b : List Char)
    (ha : ∀ c, a.getLast? = some c → isSpace c = false) (hr : r ≠ [])
    (hrs : ∀ c ∈ r, isSpace c = true) (hb : ∀ c, b.head? = some c → isSpace c = false) :
    replaceSpaces (a ++ r ++ b) = replaceSpaces a ++ '-' :: replaceSpaces b := by
  unfold replaceSpaces
  rw [List.append_assoc, replaceSpacesAux_append a false (r ++ b) (fun _ => rfl) ha]
  cases r with
  | nil => exact absurd rfl hr
  | cons d ds =>
    have hd : isSpace d = true := hrs d (List.mem_cons_self _ _)
    rw [List.cons_append, replaceSpacesAux]
    simp only [hd, if_true, Bool.false_eq_true, if_false]
    rw [replaceSpacesAux_skip ds b (fun c hc => hrs c (List.mem_cons_of_mem _ hc)),
      replaceSpacesAux_flag b hb]

theorem toLowerCase_replaceSpacesAux : ∀ (cs : List Char) (f : Bool),
    toLowerCase (replaceSpacesAux f cs) = replaceSpacesAux f (toLowerCase cs) := by
  intro cs
  induction cs with
  | nil => intro f; rfl
  | cons d ds ih =>
    intro f
    have ih1 : ∀ g, List.map lowerChar (replaceSpacesAux g ds) =
        replaceSpacesAux g (List.map lowerChar ds) := ih
    unfold toLowerCase
    rw [List.map_cons, replaceSpacesAux, replaceSpacesAux, isSpace_lowerChar]
    by_cases hd : isSpace d = true
    · cases f
      · simp only [hd, if_true, Bool.false_eq_true, if_false, List.map_cons, lowerChar_hyphen,
          ih1]
      · simp only [hd, if_true, ih1]
    · simp only [hd, Bool.false_eq_true, if_false, List.map_cons, ih1]

theorem safeName_of_name (client : Client) (n : String) (h : client.name = some n)
    (hn : n ≠ "") : safeName client = String.mk (toLowerCase (replaceSpaces n.data)) := by
  simp [safeName, strOr, h, hn]

theorem safeName_default (client : Client) (h : client.name = none ∨ client.name = some "") :
    safeName client = "cliente" := by
  have hs : strOr client.name "cliente" = "cliente" := by
    rcases h with h | h <;> simp [strOr, h]
  rw [safeName, hs]
  decide

theorem safeName_no_space (client : Client) : ∀ c ∈ (safeName client).data, isSpace c = false := by
  intro c hc
  simp only [safeName, toLowerCase, List.mem_map] at hc
  obtain ⟨d, hd, rfl⟩ := hc
  rw [isSpace_lowerChar]
  exact replaceSpacesAux_no_space _ false d hd

end PdfGenerator
